import Mathlib

/-!
Verification of the shop content-addressed package registry.

Shallow embedding of the registry engine: name/tag validators, the
key-space protocol over an abstract hierarchical store, the lazy cursor
implementations, the fan-out writer, the deterministic archive pipeline,
and repository construction. Each definition is translated from the
corresponding Go source; definitions whose doc comment says so are
modelled from the specification because the code is external to the
repository (Go standard library behaviour).
-/

namespace Shop

/-! ## Character classes (ASCII, as used by the validators) -/

/-- Test for an ASCII uppercase letter, mirroring r >= 'A' && r <= 'Z'. -/
def isUpperC (c : Char) : Bool := 'A' ≤ c && c ≤ 'Z'

/-- Test for an ASCII lowercase letter, mirroring r >= 'a' && r <= 'z'. -/
def isLowerC (c : Char) : Bool := 'a' ≤ c && c ≤ 'z'

/-- Test for an ASCII digit, mirroring r >= '0' && r <= '9'. -/
def isDigitC (c : Char) : Bool := '0' ≤ c && c ≤ '9'

/-- Letter class of the package-name scanner. -/
def isLetterC (c : Char) : Bool := isUpperC c || isLowerC c

/-- Alphanumeric class of the package-name scanner. -/
def isAlnumC (c : Char) : Bool := isUpperC c || isLowerC c || isDigitC c

/-! ## IsValidPackageName (src/unnamed/part_002, lines 8-83)

The Go function is a three-state scanner; each state returns
(ok, final, next). States are encoded as an inductive type and the
closures as one step function. -/

/-- States of the package-name scanner: state0 is start-of-segment
(start of input or just after a slash), state1 is after an alphanumeric
character, state2 is just after one of the punctuation characters. -/
inductive PkgState where
  | s0 | s1 | s2
deriving DecidableEq, Repr

/-- One transition of th package-name scanner. Returns whether the
character is accepted in this state, whether the input may end right
after it, and the next state; a faithful translation of the three
closures state0, state1, state2 in IsValidPackageName. -/
def pkgStep : PkgState → Char → Bool × Bool × PkgState
  | .s0, r => (isLetterC r, true, .s1)
  | .s1, r =>
    let isPunct := r = '.' || r = '_' || r = '-'
    let isSlash := r = '/'
    let ok := isAlnumC r || isPunct || isSlash
    if isPunct then (ok, false, .s2)
    else if isSlash then (ok, false, .s0)
    else (ok, true, .s1)
  | .s2, r => (isAlnumC r, true, .s1)

/-- Driver loop of IsValidPackageName: run the scanner over the
characters, tracking the final flag; reject as soon as a character is
not accepted, and at the end of input return the last final flag. -/
def pkgRun : List Char → PkgState → Bool → Bool
  | [], _, final => final
  | r :: rs, st, _ =>
    let (ok, final, next) := pkgStep st r
    if ok then pkgRun rs next final else false

/-- Translation of IsValidPackageName: start in state0 with final set
to false (empty input is invalid). -/
def IsValidPackageName (name : String) : Bool :=
  pkgRun name.toList .s0 false

/-! ## Validators from src/registry.go and src/unnamed/part_003 -/

/-- Length of an instance id: sha1.Size * 2 = 40. -/
def RegistryPackageInstanceIdLen : Nat := 20 * 2

/-- Translation of IsValidInstanceId (src/instance.go lines 44-54):
exactly 40 characters, each a lowercase hex digit. Go's len is a byte
count; every accepted character is ASCII, so character count agrees on
all accepted strings, and any string containing a non-ASCII character
is rejected by both readings. -/
def IsValidInstanceId (id : String) : Bool :=
  if id.toList.length ≠ RegistryPackageInstanceIdLen then false
  else id.toList.all fun c => ("0123456789abcdef".toList).contains c

/-- Translation of IsValidTagName (src/unnamed/part_003 lines 116-134):
per-index character check; i and len are byte positions in Go, but all
accepted characters are ASCII so the character-position reading agrees
(a string with a non-ASCII character is rejected by both). -/
def IsValidTagName (v : String) : Bool :=
  let cs := v.toList
  if cs.isEmpty then false
  else cs.enum.all fun p =>
    let i := p.1
    let r := p.2
    isUpperC r || isLowerC r ||
      (decide (i ≠ 0) && isDigitC r) ||
      (decide (i ≠ 0) && decide (i ≠ cs.length - 1) && (r = '.' || r = '_' || r = '-'))

/-- Translation of IsValidTagValue (src/unnamed/part_003 lines 136-155,
identical copy in src/registry.go lines 381-400). The third clause is
translated exactly as written in the source: a conjunction requiring one
rune to simultaneously equal three different characters. -/
def IsValidTagValue (v : String) : Bool :=
  let cs := v.toList
  if cs.isEmpty then false
  else cs.enum.all fun p =>
    let i := p.1
    let r := p.2
    isUpperC r || isLowerC r || isDigitC r ||
      (r = '_' && r = '-' && r = '@') ||
      (decide (i ≠ 0) && decide (i ≠ cs.length - 1) && r = '.')

/-! ## Grammar recognizers written from the specification text

These two definitions follow the words of the spec (section 4.2), not
the code, and exist to be compared with the implementations above. -/

/-- Split a character list at every occurrence of the separator; the
result keeps empty pieces (like Go's strings.Split), so a leading,
trailing or doubled separator shows up as an empty piece. -/
def splitChar (sep : Char) : List Char → List (List Char)
  | [] => [[]]
  | c :: rest =>
    let tailPieces := splitChar sep rest
    if c = sep then [] :: tailPieces
    else
      match tailPieces with
      | [] => [[c]]
      | p :: ps => (c :: p) :: ps

/-- Punctuation-extended class of a package-name segment. -/
def isSegmentInnerC (c : Char) : Bool :=
  isAlnumC c || c = '.' || c = '_' || c = '-'

/-- Specification grammar for one package-name segment: a letter,
optionally followed by interior characters from the alphanumeric or
punctuation class with the last character alphanumeric (never trailing
punctuation, matching the spec prose and the comment regex in the
source). -/
def specSegmentOk (s : List Char) : Bool :=
  match s with
  | [] => false
  | c :: rest =>
    isLetterC c &&
      (rest.isEmpty ||
        (rest.all isSegmentInnerC && isAlnumC (rest.getLastD c)))

/-- Specification grammar for a package name: slash-separated nonempty
segments, each matching specSegmentOk. -/
def specPackageNameOk (s : String) : Bool :=
  (splitChar '/' s.toList).all specSegmentOk

/-- Edge class of a tag value per the spec: alphanumeric or one of
underscore, dash, at-sign. -/
def isTagValueEdgeC (c : Char) : Bool :=
  isAlnumC c || c = '_' || c = '-' || c = '@'

/-- Specification grammar for a tag value: nonempty, first and last
characters in the edge class, interior characters additionally
allowing a dot. -/
def specTagValueOk (s : String) : Bool :=
  match s.toList with
  | [] => false
  | c :: rest =>
    isTagValueEdgeC c &&
      rest.all (fun r => isTagValueEdgeC r || r = '.') &&
      isTagValueEdgeC (rest.getLastD c)

/-! ## Key space

Storage keys are modelled as lists of nonempty path segments. The Go
code builds keys with filepath.Join, which concatenates its arguments
with slashes and cleans the result; for the arguments the registry
passes (validated names, ids and the slash-delimited constants below,
none of which contain dot segments) that is exactly concatenation of
the nonempty slash-separated segments of each argument. -/

/-- A cleaned storage path. -/
abbrev Key := List String

/-- Nonempty slash-separated segments of one path fragment. -/
def splitPath (s : String) : List String :=
  ((splitChar '/' s.toList).map (fun cs => String.mk cs)).filter (fun x => x ≠ "")

/-- Model of filepath.Join over the registry's arguments. -/
def joinPath (parts : List String) : Key :=
  (parts.map splitPath).flatten

/-- Model of filepath.Dir on a cleaned path: drop the last segment. -/
def dirPath (k : Key) : Key := k.dropLast

/-- Key-space constants from src/unnamed/part_003 lines 9-22. The Go
names end in Prefix; they are shortened to Pfx here. -/
def LatestVersion : String := "1.0.0"

/-- Constant RegistryPackagesPrefix. -/
def RegistryPackagesPfx : String := "/packages/"

/-- Constant RegistryPackageManifestKey. -/
def RegistryPackageManifestKey : String := "package.json"

/-- Constant RegistryPackageReferencesPrefix. -/
def RegistryPackageReferencesPfx : String := "/refs/"

/-- Constant RegistryPackageInstancesPrefix. -/
def RegistryPackageInstancesPfx : String := "/instances/"

/-- Constant RegistryPackageInstanceManifestKey. -/
def RegistryPackageInstanceManifestKey : String := "instance.json"

/-- Constant RegistryPackageTagsPrefix. -/
def RegistryPackageTagsPfx : String := "/tags/"

/-- Constant RegistryPackageInstanceTagsPrefix. -/
def RegistryPackageInstanceTagsPfx : String := "/tags/"

/-! ## Stored records

JSON bodies are modelled structurally. The api_version and updated_at
bookkeeping fields the operations assign are kept (timestamps are Unix
seconds passed in as an explicit now argument, since time.Now is an
external input); fields never read by the verified operations
(description, repo, readonly urls) are omitted. -/

/-- Instance record (instance.json), from the Instance struct. -/
structure InstanceRec where
  apiVersion : String
  pkg : String
  id : String
  uploadedAt : Nat
  updatedAt : Nat
deriving DecidableEq, Repr

/-- Reference record (refs objects), from the Reference struct.
PutPackageReference stores the record exactly as given, so the
bookkeeping fields are not modelled here. -/
structure RefRec where
  pkg : String
  name : String
  id : String
deriving DecidableEq, Repr

/-- Tag record (both tag index halves), from the Tag struct. -/
structure TagRec where
  apiVersion : String
  pkg : String
  key : String
  value : String
  id : String
  updatedAt : Nat
deriving DecidableEq, Repr

/-- A JSON object held by the store. -/
inductive StoreVal where
  | inst (i : InstanceRec)
  | tag (t : TagRec)
  | ref (r : RefRec)
deriving DecidableEq, Repr

/-- Errors surfaced by the storage and registry layers. Multi-error
aggregation is modelled by lists of these: the empty list is a nil
error, and multierror.Append is list append. -/
inductive StoreErr where
  | notFound (k : Key)
  | dirNotEmpty (k : Key)
  | writeNotAllowed (k : Key)
  | writeDenied (op : String)
  | adminDenied (op : String)
  | ioEOF
  | urlParseError
deriving DecidableEq, Repr

/-! ## Store

Model of one repository's backing storage (the FileFS driver,
src/unnamed/part_003 lines 167-276): a flat map from cleaned keys to
JSON objects, plus the set of directories created by MakeDir. -/

/-- State of one storage backend. -/
structure Store where
  objects : List (Key × StoreVal)
  dirs : List Key
deriving DecidableEq, Repr

/-- The empty store. -/
def Store.empty : Store := ⟨[], []⟩

/-- Look up the object stored at a key. -/
def lookupObj (st : Store) (k : Key) : Option StoreVal :=
  st.objects.lookup k

/-- Model of FileFS.Write (os.WriteFile): create or overwrite the
object at the key. -/
def fsWrite (st : Store) (k : Key) (v : StoreVal) : Store :=
  { st with objects := (k, v) :: st.objects.eraseP (fun p => p.1 == k) }

/-- All nonempty ancestor paths of a key, the key included. -/
def ancestorsOf (k : Key) : List Key :=
  (List.range k.length).map (fun i => k.take (i + 1))

/-- Model of FileFS.MakeDir (os.MkdirAll): record the directory and
every ancestor. -/
def fsMkdirAll (st : Store) (k : Key) : Store :=
  { st with
    dirs := (ancestorsOf k).foldl
      (fun ds d => if ds.contains d then ds else d :: ds) st.dirs }

/-- Whether a key lies strictly below a given path. -/
def isUnderDir (pfx k : Key) : Bool :=
  decide (pfx.length < k.length) && k.take pfx.length == pfx

/-- Model of FileFS.Remove (os.Remove): removes the object at the key,
or the directory at the key when that directory is empty; removing a
nonempty directory or a missing path is an error, and nothing is
removed recursively. -/
def fsRemove (st : Store) (k : Key) : Store × List StoreErr :=
  if (lookupObj st k).isSome then
    ({ st with objects := st.objects.eraseP (fun p => p.1 == k) }, [])
  else if st.dirs.contains k then
    if st.objects.any (fun p => isUnderDir k p.1) ||
        st.dirs.any (fun d => isUnderDir k d) then
      (st, [.dirNotEmpty k])
    else
      ({ st with dirs := st.dirs.erase k }, [])
  else
    (st, [.notFound k])

/-- One directory entry produced by listing, from the Entry struct in
src/repository.go; the IsPrefix field is named isPfx here. -/
structure Entry where
  key : String
  isPfx : Bool
deriving DecidableEq, Repr

/-- Model of FileFS.ListDir: the immediate children of a path, files
first, directories second (the on-disk order is unspecified). -/
def fsListDir (st : Store) (pfx : Key) : List Entry :=
  (st.objects.filterMap fun p =>
    if p.1.length == pfx.length + 1 && p.1.take pfx.length == pfx then
      some ⟨p.1.getLastD "", false⟩
    else none) ++
  (st.dirs.filterMap fun d =>
    if d.length == pfx.length + 1 && d.take pfx.length == pfx then
      some ⟨d.getLastD "", true⟩
    else none)

/-! ## Repository layer (src/repository.go lines 69-167) -/

/-- Repository configuration: URL plus the write/admin permission
tiers. -/
structure RepositoryConfig where
  url : String
  write : Bool
  admin : Bool
deriving DecidableEq, Repr

/-- Model of repositoryImpl.PutJSON: refuse without the write tier,
else serialize and write. -/
def repoPutJSON (cfg : RepositoryConfig) (st : Store) (k : Key) (v : StoreVal) :
    Store × List StoreErr :=
  if !cfg.write then (st, [.writeNotAllowed k]) else (fsWrite st k v, [])

/-- Model of repositoryImpl.EnsurePrefix: refuse without the write
tier, else MakeDir. -/
def repoEnsureDir (cfg : RepositoryConfig) (st : Store) (k : Key) :
    Store × List StoreErr :=
  if !cfg.write then (st, [.writeNotAllowed k]) else (fsMkdirAll st k, [])

/-- Model of repositoryImpl.Delete: refuse without the write tier,
else Remove. -/
def repoDelete (cfg : RepositoryConfig) (st : Store) (k : Key) :
    Store × List StoreErr :=
  if !cfg.write then (st, [.writeNotAllowed k]) else fsRemove st k

/-- Model of GetJSON decoded as an instance record; none covers both
the not-found and the decode-failure error outcomes. -/
def repoGetInst (st : Store) (k : Key) : Option InstanceRec :=
  match lookupObj st k with
  | some (.inst i) => some i
  | _ => none

/-- Model of GetJSON decoded as a tag record. -/
def repoGetTag (st : Store) (k : Key) : Option TagRec :=
  match lookupObj st k with
  | some (.tag t) => some t
  | _ => none

/-- Model of GetJSON decoded as a reference record. -/
def repoGetRef (st : Store) (k : Key) : Option RefRec :=
  match lookupObj st k with
  | some (.ref r) => some r
  | _ => none

/-! ## Registry engine (src/unnamed/part_000, RegistryImpl) -/

/-- Registry configuration: the write/admin permission tiers. -/
structure RegistryConfig where
  write : Bool
  admin : Bool
deriving DecidableEq, Repr

/-- A registry client over its root repository. Secondary repositories
only matter for UploadPackageInstance and are not modelled. -/
structure Registry where
  cfg : RegistryConfig
  repoCfg : RepositoryConfig
  store : Store
deriving DecidableEq, Repr

/-- Translation of RegistryImpl.GetPackageInstanceInfo (part_000 lines
224-232). The key joins RegistryPackagesPrefix twice, exactly as the
source does. -/
def GetPackageInstanceInfo (r : Registry) (name id : String) : Option InstanceRec :=
  let key := joinPath [RegistryPackagesPfx, name, RegistryPackagesPfx, id,
    RegistryPackageInstanceManifestKey]
  repoGetInst r.store key

/-- Translation of RegistryImpl.PutPackageInstanceInfo (part_000 lines
274-292): write check, ensure the instance directory, then aggregate
the manifest write with ensuring the tags subdirectory. -/
def PutPackageInstanceInfo (r : Registry) (inst : InstanceRec) (now : Nat) :
    Registry × List StoreErr :=
  let key := joinPath [RegistryPackagesPfx, inst.pkg, RegistryPackageInstancesPfx,
    inst.id, RegistryPackageInstanceManifestKey]
  let pfx := dirPath key
  let tagsDir := pfx ++ splitPath RegistryPackageInstanceTagsPfx
  if !r.cfg.write then (r, [.writeDenied "PutPackageInstanceInfo"])
  else
    let (st1, e1) := repoEnsureDir r.repoCfg r.store pfx
    if !e1.isEmpty then ({ r with store := st1 }, e1)
    else
      let inst1 := { inst with updatedAt := now }
      let (st2, e2) := repoPutJSON r.repoCfg st1 key (.inst inst1)
      let (st3, e3) := repoEnsureDir r.repoCfg st2 tagsDir
      ({ r with store := st3 }, e2 ++ e3)

/-- Translation of RegistryImpl.GetPackageReference (part_000 lines
374-382). The key uses the reference name where the package belongs,
exactly as the source does; the pkg argument is never read. -/
def GetPackageReference (r : Registry) (pkg name : String) : Option RefRec :=
  let key := joinPath [RegistryPackagesPfx, name, RegistryPackageReferencesPfx, name]
  repoGetRef r.store key

/-- Translation of RegistryImpl.PutPackageReference (part_000 lines
384-390): write check, then a single-key overwrite. -/
def PutPackageReference (r : Registry) (ref : RefRec) : Registry × List StoreErr :=
  let key := joinPath [RegistryPackagesPfx, ref.pkg, RegistryPackageReferencesPfx,
    ref.name]
  if !r.cfg.write then (r, [.writeDenied "PutPackageReference"])
  else
    let (st1, e1) := repoPutJSON r.repoCfg r.store key (.ref ref)
    ({ r with store := st1 }, e1)

/-- Translation of RegistryImpl.PutPackageInstanceTag (part_000 lines
508-532): stamp the record, write check, ensure both index directories
(aggregated), then write both index halves (aggregated). -/
def PutPackageInstanceTag (r : Registry) (tag : TagRec) (now : Nat) :
    Registry × List StoreErr :=
  let tag1 := { tag with apiVersion := LatestVersion, updatedAt := now }
  if !r.cfg.write then (r, [.writeDenied "PutPackageInstanceTag"])
  else
    let key1 := joinPath [RegistryPackagesPfx, tag.pkg, RegistryPackageTagsPfx,
      tag.key, tag.value, tag.id]
    let pfx1 := dirPath key1
    let key2 := joinPath [RegistryPackagesPfx, tag.pkg, RegistryPackageInstancesPfx,
      tag.id, RegistryPackageInstanceTagsPfx, tag.key, tag.value]
    let pfx2 := dirPath key2
    let (st1, e1) := repoEnsureDir r.repoCfg r.store pfx1
    let (st2, e2) := repoEnsureDir r.repoCfg st1 pfx2
    if !(e1 ++ e2).isEmpty then ({ r with store := st2 }, e1 ++ e2)
    else
      let (st3, e3) := repoPutJSON r.repoCfg st2 key1 (.tag tag1)
      let (st4, e4) := repoPutJSON r.repoCfg st3 key2 (.tag tag1)
      ({ r with store := st4 }, e3 ++ e4)

/-- Translation of RegistryImpl.DeletePackageInstanceTag (part_000
lines 534-546): admin check, then delete the forward key and a reverse
key that stops at the tag key segment (no value segment), exactly as
the source builds key2. -/
def DeletePackageInstanceTag (r : Registry) (tag : TagRec) :
    Registry × List StoreErr :=
  if !r.cfg.admin then (r, [.adminDenied "DeletePackageInstanceTag"])
  else
    let key1 := joinPath [RegistryPackagesPfx, tag.pkg, RegistryPackageTagsPfx,
      tag.key, tag.value, tag.id]
    let key2 := joinPath [RegistryPackagesPfx, tag.pkg, RegistryPackageInstancesPfx,
      tag.id, RegistryPackageInstanceTagsPfx, tag.key]
    let (st1, e1) := repoDelete r.repoCfg r.store key1
    let (st2, e2) := repoDelete r.repoCfg st1 key2
    ({ r with store := st2 }, e1 ++ e2)

/-- A (package, tag key, tag value) triple, flattening PackageTagValue
and its embedded PackageTag. -/
structure PackageTagValue where
  pkg : String
  key : String
  value : String
deriving DecidableEq, Repr

/-- Translation of RegistryImpl.ListPackageInstancesByTag (part_000
lines 499-506): the underlying Repository.List entries over the
forward index directory for the given key and value. -/
def ListPackageInstancesByTag (r : Registry) (t : PackageTagValue) : List Entry :=
  fsListDir r.store
    (joinPath [RegistryPackagesPfx, t.pkg, RegistryPackageTagsPfx, t.key, t.value])

/-- Translation of registryListPackageInstancesByTagCursor.GetNext
(part_000 lines 475-497): skip directory entries and entries whose name
is not a valid instance id, then fetch the tag record at a key that
joins package, tag key, tag value and id without the tags segment,
exactly as the source builds it. -/
def listByTagGetNext (st : Store) (t : PackageTagValue) :
    List Entry → (Option TagRec × List StoreErr) × List Entry
  | [] => ((none, []), [])
  | e :: rest =>
    if e.isPfx || !IsValidInstanceId e.key then listByTagGetNext st t rest
    else
      let k := joinPath [RegistryPackagesPfx, t.pkg, t.key, t.value, e.key]
      match repoGetTag st k with
      | some tg => ((some tg, []), rest)
      | none => ((none, [.notFound k]), rest)

/-- Iterate listByTagGetNext until exhaustion or the first error,
collecting the yielded records (the cursor contract: stop at the first
error). -/
def listByTagDrain (st : Store) (t : PackageTagValue) :
    List Entry → List TagRec × List StoreErr
  | [] => ([], [])
  | e :: rest =>
    if e.isPfx || !IsValidInstanceId e.key then listByTagDrain st t rest
    else
      let k := joinPath [RegistryPackagesPfx, t.pkg, t.key, t.value, e.key]
      match repoGetTag st k with
      | some tg =>
        let (ts, errs) := listByTagDrain st t rest
        (tg :: ts, errs)
      | none => ([], [.notFound k])

/-! ## Cursor implementations (src/cursor.go, src/unnamed/part_001,
src/unnamed/part_003) -/

/-- Translation of ErrorCursor: a cursor that always reports the same
error. -/
structure ErrorCursorM where
  err : StoreErr
deriving DecidableEq, Repr

/-- Translation of ErrorCursor.GetNext (src/cursor.go lines 19-21):
no value, always the stored error, no state change. -/
def errorCursorGetNext (c : ErrorCursorM) : Option Entry × Option StoreErr :=
  (none, some c.err)

/-- Translation of SliceCursor: the not-yet-yielded items. -/
structure SliceCursorM (α : Type) where
  items : List α
deriving DecidableEq, Repr

/-- Translation of SliceCursor.GetNext (src/unnamed/part_001 lines
31-37): pop the first remaining item; after exhaustion, no value and
no error. -/
def sliceCursorGetNext {α : Type} (c : SliceCursorM α) :
    (Option α × Option StoreErr) × SliceCursorM α :=
  match c.items with
  | [] => ((none, none), c)
  | x :: rest => ((some x, none), ⟨rest⟩)

/-- State of fileFSCursor (src/unnamed/part_003 lines 208-258): file
is some of the directory entries Readdir has not returned yet while the
handle is open, and none once the source sets c.file to nil; entries is
the buffered chunk from the last Readdir call. -/
structure FileFSCursorM where
  file : Option (List Entry)
  entries : List Entry
deriving DecidableEq, Repr

/-- Translation of fileFSCursor.GetNext: with the handle closed report
io.EOF; otherwise refill the buffer via Readdir(100) when it is empty
(end of directory surfaces as io.EOF, which closes the handle and is
converted to a nil error), then pop the first buffered entry. -/
def fileFSCursorGetNext (c : FileFSCursorM) :
    (Option Entry × Option StoreErr) × FileFSCursorM :=
  match c.file with
  | none => ((none, some .ioEOF), c)
  | some remaining =>
    let (entries, file) :=
      if c.entries.isEmpty then
        if remaining.isEmpty then ([], none)
        else (remaining.take 100, some (remaining.drop 100))
      else (c.entries, some remaining)
    match entries with
    | [] => ((none, none), { file := file, entries := [] })
    | e :: rest => ((some e, none), { file := file, entries := rest })

/-- Shared concrete 40-character instance id used by the scenario
evaluations below. -/
def idA : String := "aaaaaaaaaaaaaaaaaaaaaaaaaaaaaaaaaaaaaaaa"

/-- Shared concrete registry with every permission tier enabled over an
empty store. -/
def regAll : Registry :=
  { cfg := { write := true, admin := true }
    repoCfg := { url := "file:///srv/shop", write := true, admin := true }
    store := Store.empty }

/-! Concrete scenario states used by the registry round-trip claims. -/

/-- Concrete valid tag: package a, key k, value v, instance idA. -/
def tagAkv : TagRec := ⟨"", "a", "k", "v", idA, 0⟩

/-- Record actually written by putting tagAkv at time 7. -/
def tagAkvStamped : TagRec :=
  { tagAkv with apiVersion := LatestVersion, updatedAt := 7 }

/-- Registry state and error after putting tagAkv at time 7. -/
def regAfterTagPut : Registry × List StoreErr :=
  PutPackageInstanceTag regAll tagAkv 7

/-- Forward tag index key the put writes. -/
def tagFwdKey : Key :=
  joinPath [RegistryPackagesPfx, "a", RegistryPackageTagsPfx, "k", "v", idA]

/-- Reverse tag index key the put writes. -/
def tagRevKey : Key :=
  joinPath [RegistryPackagesPfx, "a", RegistryPackageInstancesPfx, idA,
    RegistryPackageInstanceTagsPfx, "k", "v"]

/-- Reverse-side key the delete targets (stops at the key segment). -/
def tagRevDeleteKey : Key :=
  joinPath [RegistryPackagesPfx, "a", RegistryPackageInstancesPfx, idA,
    RegistryPackageInstanceTagsPfx, "k"]

/-- Key at which the by-tag cursor fetches records (missing the tags
segment). -/
def tagWrongGetKey : Key :=
  joinPath [RegistryPackagesPfx, "a", "k", "v", idA]

/-- Registry state and error after deleting tagAkv from
regAfterTagPut. -/
def regAfterTagDel : Registry × List StoreErr :=
  DeletePackageInstanceTag regAfterTagPut.1 tagAkv

/-- Concrete valid instance record for package a. -/
def instA : InstanceRec := ⟨"1.0.0", "a", idA, 3, 3⟩

/-- Registry state and error after putting instA at time 7. -/
def regAfterInstPut : Registry × List StoreErr :=
  PutPackageInstanceInfo regAll instA 7

/-- Key at which PutPackageInstanceInfo stores the record. -/
def instPutKey : Key :=
  joinPath [RegistryPackagesPfx, "a", RegistryPackageInstancesPfx, idA,
    RegistryPackageInstanceManifestKey]

/-- Key from which GetPackageInstanceInfo reads (packages twice). -/
def instGetKey : Key :=
  joinPath [RegistryPackagesPfx, "a", RegistryPackagesPfx, idA,
    RegistryPackageInstanceManifestKey]

/-- Concrete valid reference: package a, name r. -/
def refAr : RefRec := ⟨"a", "r", idA⟩

/-- Registry state and error after putting refAr. -/
def regAfterRefPut : Registry × List StoreErr :=
  PutPackageReference regAll refAr

/-- Key at which PutPackageReference stores refAr. -/
def refPutKey : Key :=
  joinPath [RegistryPackagesPfx, "a", RegistryPackageReferencesPfx, "r"]

/-- Key from which GetPackageReference reads for (pkg a, name r): the
name is used in the package position. -/
def refGetKey : Key :=
  joinPath [RegistryPackagesPfx, "r", RegistryPackageReferencesPfx, "r"]

/-! ## TeeWriter (src/instance.go lines 56-100)

The fan-out writer spawns one task per destination for the duration of
one Write call. Each destination is modelled by the list of results its
successive Write calls return (a byte count and an optional error).
Executions are modelled without cross-destination cancellation — the
runs in which every loop finishes before observing a sibling's
cancellation; cancellation only stops loops early and never changes the
all-success case. -/

/-- Behaviour of one destination: the successive results of its Write
calls. -/
abbrev WriterResp := List (Nat × Option String)

/-- Outcome of one destination's writer loop. lastN is the byte count
returned by the final Write call — the n the goroutine stores into
teeWriterError; accepted is the total number of bytes the destination
reported written across all calls; err carries the failure together
with that wrapped lastN. -/
structure WriterOutcome where
  lastN : Nat
  accepted : Nat
  err : Option (String × Nat)
deriving DecidableEq, Repr

/-- Translation of the per-destination loop in TeeWriter.Write: while
data remains and no error occurred, call Write and drop the count it
reports (capped at the remaining length — a writer reporting more would
make the Go slice expression panic); on a failing call, wrap the error
with that final call's count. A destination whose response list runs
out while data remains is left as a partial success; the theorems below
exclude that model artifact by hypothesis. -/
def writerRun : WriterResp → List Nat → Nat → Nat → WriterOutcome
  | _, [], lastN, acc => ⟨lastN, acc, none⟩
  | [], _, lastN, acc => ⟨lastN, acc, none⟩
  | (n, e) :: rest, d, _, acc =>
    let taken := min n d.length
    match e with
    | some msg => ⟨n, acc + taken, some (msg, n)⟩
    | none => writerRun rest (d.drop n) n (acc + taken)

/-- Translation of TeeWriter.Write: run every destination, start the
reported count at the input length, fold min over the counts wrapped in
the collected teeWriterErrors, and aggregate the failures (empty list =
nil error). -/
def teeWrite (dests : List WriterResp) (data : List Nat) : Nat × List String :=
  let outcomes := dests.map (fun rs => writerRun rs data 0 0)
  let wrapped := outcomes.filterMap (fun o => o.err)
  (wrapped.foldl (fun m p => min m p.2) data.length, wrapped.map (fun p => p.1))

/-- A destination behaviour honouring the io.Writer contract for the
one call it receives on nonempty input: a nil-error result reports the
whole remaining length, and a failing result reports at most that
length. -/
def conformingResp (data : List Nat) (rs : WriterResp) : Bool :=
  match rs with
  | [] => data.isEmpty
  | (n, e) :: _ =>
    data.isEmpty ||
      (match e with
       | none => n == data.length
       | some _ => decide (n ≤ data.length))

/-! ## Archive pipeline (src/instance.go lines 102-181) -/

/-- Owner information available through FileInfo.Sys on a POSIX
system. -/
structure SysInfo where
  uid : Nat
  gid : Nat
deriving DecidableEq, Repr

/-- Model of fs.FileInfo restricted to the fields archive/tar reads:
base name, directory flag, size, permission bits, modification time
(Unix seconds) and the os-specific Sys value carrying ownership. -/
structure FileInfo where
  name : String
  isDir : Bool
  size : Nat
  mode : Nat
  mtime : Nat
  sys : Option SysInfo
deriving DecidableEq, Repr

/-- One node of the walked directory tree: its slash-separated path,
its FileInfo and its content bytes (empty for directories). -/
structure FileNode where
  path : String
  info : FileInfo
  content : List Nat
deriving DecidableEq, Repr

/-- A directory tree, listed in the deterministic lexical order
fs.WalkDir visits it. -/
abbrev FileTree := List FileNode

/-- Translation of stripOwnerFileInfo (src/instance.go lines 146-155):
the wrapper forwards every FileInfo field unchanged and makes Sys
return nil, so uid and gid cannot be recovered, while name, directory
flag, size, permission bits and modification time pass through. -/
def stripOwnerFileInfo (fi : FileInfo) : FileInfo :=
  { fi with sys := none }

/-- Translation of stripOwnerFS as seen by the walk: every node's
FileInfo is wrapped by stripOwnerFileInfo. -/
def stripOwnerTree (t : FileTree) : FileTree :=
  t.map fun nd => { nd with info := stripOwnerFileInfo nd.info }

/-- Tar header fields tar.FileInfoHeader fills from a FileInfo. -/
structure TarHeader where
  name : String
  mode : Nat
  uid : Nat
  gid : Nat
  size : Nat
  mtime : Nat
  isDir : Bool
deriving DecidableEq, Repr

/-- Modelled from the spec and the documented contract of the Go
standard library's tar.FileInfoHeader as used by tar.Writer.AddFS: the
header carries the walk path as name, the permission bits as mode, the
size and modification time, and reads uid/gid from the os-specific Sys
value — zero when Sys returns nil, which is exactly what the comment
on stripOwnerFileInfo.Sys relies on. -/
def fileInfoHeader (path : String) (fi : FileInfo) : TarHeader :=
  { name := path
    mode := fi.mode
    uid := match fi.sys with | some s => s.uid | none => 0
    gid := match fi.sys with | some s => s.gid | none => 0
    size := fi.size
    mtime := fi.mtime
    isDir := fi.isDir }

/-- Header and content pairs the tar encoder receives for a tree
(tar.Writer.AddFS walks the tree and writes one header, then the file
content, per node). -/
def tarEntries (t : FileTree) : List (TarHeader × List Nat) :=
  t.map fun nd => (fileInfoHeader nd.path nd.info, nd.content)

/-- Decimal-digit byte encoding of a number, used as the field encoder
of the tar byte-stream model. -/
def natBytes (n : Nat) : List Nat :=
  (Nat.toDigits 10 n).map Char.toNat

/-- Byte encoding of a string field. -/
def strBytes (s : String) : List Nat :=
  s.toList.map Char.toNat

/-- Modelled from the spec: the serialization of one tar header. The
real USTAR layout writes these same fields into a fixed 512-byte block;
the model keeps the identical information content, separating fields
with a byte value outside the data alphabet, so that equal headers give
equal bytes and differing headers differing bytes. -/
def tarHeaderBytes (h : TarHeader) : List Nat :=
  strBytes h.name ++ [255] ++ natBytes h.mode ++ [255] ++ natBytes h.uid ++
    [255] ++ natBytes h.gid ++ [255] ++ natBytes h.size ++ [255] ++
    natBytes h.mtime ++ [255, if h.isDir then 1 else 0]

/-- Modelled from the spec: the tar byte stream of an entry list. -/
def tarBytes (entries : List (TarHeader × List Nat)) : List Nat :=
  (entries.map fun e => tarHeaderBytes e.1 ++ [254] ++ e.2 ++ [253]).flatten

/-- Modelled from the spec: gzip is a deterministic lossless
compressor; the model prefixes the gzip magic bytes and keeps the
payload. The claims rely only on determinism and on losslessness
(distinct inputs compress to distinct outputs), both of which this
encoding has. -/
def gzipBytes (b : List Nat) : List Nat :=
  31 :: 139 :: b

/-- Lowercase hex digit of a number below 16. -/
def hexDigitC (n : Nat) : Char :=
  "0123456789abcdef".toList.getD n '0'

/-- Forty-digit lowercase hex rendering of a number below 2 ^ 160. -/
def hex40 (n : Nat) : String :=
  String.mk ((List.range 40).map (fun i => hexDigitC (n / 16 ^ (39 - i) % 16)))

/-- Modelled from the spec: SHA-1 is a deterministic 160-bit digest of
the byte stream, rendered as 40 lowercase hex characters. The claims
rely only on its determinism, so the model folds the bytes into a
160-bit accumulator. -/
def sha1Hex (b : List Nat) : String :=
  hex40 (b.foldl (fun h x => (h * 131 + x) % 2 ^ 160) 17)

/-- Translation of MakeArchive (src/instance.go lines 157-181): wrap
the tree in stripOwnerFS, feed it through the tar encoder and the gzip
compressor, and tee the compressed bytes to both the destination and
the SHA-1 hasher; the result is the byte stream the destination
received together with the hex digest used as the instance id. -/
def MakeArchive (t : FileTree) : List Nat × String :=
  let bytes := gzipBytes (tarBytes (tarEntries (stripOwnerTree t)))
  (bytes, sha1Hex bytes)

/-- Equality of two file nodes on every field except the ownership
carried by Sys: same path, content, base name, directory flag, size,
permission bits and modification time. -/
def eqExceptOwner (a b : FileNode) : Bool :=
  a.path == b.path && a.content == b.content &&
    a.info.name == b.info.name && a.info.isDir == b.info.isDir &&
    a.info.size == b.info.size && a.info.mode == b.info.mode &&
    a.info.mtime == b.info.mtime

/-! ## Repository construction (src/repository.go lines 15-91) -/

/-- Backend-factory schemes registered by the drivers at load time:
file (src/unnamed/part_003), http and https (src/http_repository.go),
webdav and https+webdav (src/webdav_repository.go). -/
def registeredSchemes : List String :=
  ["file", "http", "https", "webdav", "https+webdav"]

/-- Characters allowed in a URL scheme after the first one, as net/url
accepts them. -/
def isSchemeTailC (c : Char) : Bool :=
  isAlnumC c || c = '+' || c = '-' || c = '.'

/-- Modelled from the spec: url.Parse succeeds unless the URL contains
an ASCII control character or starts with a colon (missing protocol
scheme). -/
def urlParses (s : String) : Bool :=
  (s.toList.all fun c => decide (32 ≤ c.toNat) && decide (c.toNat ≠ 127)) &&
    (match s.toList with
     | ':' :: _ => false
     | _ => true)

/-- Scheme scanner of net/url: consume scheme characters up to a colon;
anything else means the URL has no scheme. -/
def urlSchemeScan (acc : List Char) : List Char → List Char
  | [] => []
  | c :: rest =>
    if c = ':' then acc.reverse
    else if (if acc.isEmpty then isLetterC c else isSchemeTailC c) then
      urlSchemeScan (c :: acc) rest
    else []

/-- Modelled from net/url: the lowercased scheme of a URL, empty when
the URL has none. -/
def urlSchemeOf (s : String) : String :=
  String.mk ((urlSchemeScan [] s.toList).map Char.toLower)

/-- Opaque handle to a backend filesystem; the scheme records which
factory produced it. -/
structure BackendFS where
  scheme : String
deriving DecidableEq, Repr

/-- Value NewRepository assembles: the configuration plus the backend
handle, none standing for Go's nil interface when no factory
matched. -/
structure RepositoryHandle where
  cfg : RepositoryConfig
  fs : Option BackendFS
deriving DecidableEq, Repr

/-- Translation of NewRepository (src/repository.go lines 74-91): a URL
parse failure returns early with the error; otherwise the factory for
the scheme is looked up — the unknown-schema failure is assigned to err
when there is none — and the function then returns the repository value
together with a nil error unconditionally, discarding the recorded
failure. -/
def NewRepository (cfg : RepositoryConfig) :
    Option RepositoryHandle × Option StoreErr :=
  if !urlParses cfg.url then (none, some .urlParseError)
  else
    let scheme := urlSchemeOf cfg.url
    let fs : Option BackendFS :=
      if registeredSchemes.contains scheme then some ⟨scheme⟩ else none
    (some ⟨cfg, fs⟩, none)

end Shop

/-! ## Claim C4 -/

/-- C4: IsValidPackageName does not implement the stated grammar: it
agrees with the grammar on a/b-c.d9, a.b, /a, a/, .a and a., but it
rejects a..b although the grammar (and the comment regex in the source)
accepts interior double punctuation — after one punctuation character
the scanner's state2 demands an alphanumeric character. -/
theorem C4_package_name_grammar_divergence :
    Shop.IsValidPackageName "a/b-c.d9" = true ∧
    Shop.IsValidPackageName "a.b" = true ∧
    Shop.IsValidPackageName "/a" = false ∧
    Shop.IsValidPackageName "a/" = false ∧
    Shop.IsValidPackageName ".a" = false ∧
    Shop.IsValidPackageName "a." = false ∧
    Shop.specPackageNameOk "a..b" = true ∧
    Shop.IsValidPackageName "a..b" = false := by
  decide

/-! ## Claim C8 -/

/-- C8: IsValidTagValue does not implement the tag-value grammar: the
clause meant to accept underscore, dash and at-sign requires one rune to
equal all three characters at once, so it never holds; dead-beef and
v1_2@rc are rejected although the grammar (and the comment regex in the
source) accepts them. Purely alphanumeric values still pass. -/
theorem C8_tag_value_grammar_divergence :
    Shop.specTagValueOk "dead-beef" = true ∧
    Shop.specTagValueOk "v1_2@rc" = true ∧
    Shop.IsValidTagValue "dead-beef" = false ∧
    Shop.IsValidTagValue "v1_2@rc" = false ∧
    Shop.IsValidTagValue "deadbeef" = true ∧
    Shop.IsValidTagValue "v1.2" = true := by
  decide

/-! ## Claim C3 -/

/-- C3: the tag round-trip is broken. Putting the valid tag
(a, k, v, idA) succeeds and stores the forward index record, and the
listing for (a, k, v) does see the one instance-id entry; but the
cursor then fetches the record at packages/a/k/v/idA — without the tags
segment — so iterating the listing yields no tag record and an error
instead of the tagged instance. -/
theorem C3_tag_round_trip_lists_error :
    Shop.regAfterTagPut.2 = [] ∧
    Shop.lookupObj Shop.regAfterTagPut.1.store Shop.tagFwdKey
      = some (Shop.StoreVal.tag Shop.tagAkvStamped) ∧
    Shop.ListPackageInstancesByTag Shop.regAfterTagPut.1 ⟨"a", "k", "v"⟩
      = [⟨Shop.idA, false⟩] ∧
    Shop.listByTagDrain Shop.regAfterTagPut.1.store ⟨"a", "k", "v"⟩
      (Shop.ListPackageInstancesByTag Shop.regAfterTagPut.1 ⟨"a", "k", "v"⟩)
      = ([], [Shop.StoreErr.notFound Shop.tagWrongGetKey]) ∧
    Shop.tagWrongGetKey ≠ Shop.tagFwdKey := by
  decide

/-! ## Claim C5 -/

/-- C5: the instance-metadata round-trip is broken. Putting the valid
instance (a, idA) succeeds and stores the record at
packages/a/instances/idA/instance.json, but GetPackageInstanceInfo
reads packages/a/packages/idA/instance.json — the packages segment
twice — so a get immediately after the put reports not-found. -/
theorem C5_instance_info_get_misses_put_key :
    Shop.regAfterInstPut.2 = [] ∧
    Shop.lookupObj Shop.regAfterInstPut.1.store Shop.instPutKey
      = some (Shop.StoreVal.inst { Shop.instA with updatedAt := 7 }) ∧
    Shop.GetPackageInstanceInfo Shop.regAfterInstPut.1 "a" Shop.idA = none ∧
    Shop.instGetKey ≠ Shop.instPutKey := by
  decide

/-! ## Claim C6 -/

/-- C6: the reference round-trip is broken. Putting the reference
(package a, name r) succeeds and stores it at packages/a/refs/r, but
GetPackageReference ignores its package argument and reads
packages/r/refs/r, so a get immediately after the put reports
not-found whenever the package and reference names differ. -/
theorem C6_reference_get_ignores_package :
    Shop.regAfterRefPut.2 = [] ∧
    Shop.lookupObj Shop.regAfterRefPut.1.store Shop.refPutKey
      = some (Shop.StoreVal.ref Shop.refAr) ∧
    Shop.GetPackageReference Shop.regAfterRefPut.1 "a" "r" = none ∧
    Shop.refGetKey ≠ Shop.refPutKey := by
  decide

/-! ## Claim C7 -/

/-- C7: the put does write identical payloads at the forward and
reverse index keys, but the delete does not target those same two keys:
its reverse-side key stops at the tag key segment, naming the directory
that still contains the reverse record. On the filesystem backend that
removal fails (directory not empty), so after a successful put and the
delete the forward half is gone while the reverse half remains. -/
theorem C7_tag_delete_leaves_reverse_half :
    Shop.lookupObj Shop.regAfterTagPut.1.store Shop.tagFwdKey
      = some (Shop.StoreVal.tag Shop.tagAkvStamped) ∧
    Shop.lookupObj Shop.regAfterTagPut.1.store Shop.tagRevKey
      = some (Shop.StoreVal.tag Shop.tagAkvStamped) ∧
    Shop.tagRevDeleteKey ≠ Shop.tagRevKey ∧
    Shop.regAfterTagDel.2 = [Shop.StoreErr.dirNotEmpty Shop.tagRevDeleteKey] ∧
    Shop.lookupObj Shop.regAfterTagDel.1.store Shop.tagFwdKey = none ∧
    Shop.lookupObj Shop.regAfterTagDel.1.store Shop.tagRevKey
      = some (Shop.StoreVal.tag Shop.tagAkvStamped) := by
  decide

/-! ## Claim C9 -/

/-- C9: the filesystem directory cursor is not terminally stable. On an
empty directory the first call reports exhaustion (no value, no error)
and closes the handle, but every later call reports the io.EOF error —
a different terminal result than the exhaustion it first reported. -/
theorem C9_filefs_cursor_changes_terminal_result :
    (Shop.fileFSCursorGetNext ⟨some [], []⟩).1 = (none, none) ∧
    (Shop.fileFSCursorGetNext
      (Shop.fileFSCursorGetNext ⟨some [], []⟩).2).1
      = (none, some Shop.StoreErr.ioEOF) ∧
    (Shop.fileFSCursorGetNext
      (Shop.fileFSCursorGetNext
        (Shop.fileFSCursorGetNext ⟨some [], []⟩).2).2).1
      = (none, some Shop.StoreErr.ioEOF) := by
  decide

/-- Supporting fact: the error cursor is terminally stable — every call
returns the same error and no value. -/
theorem errorCursor_terminal_stable (c : Shop.ErrorCursorM) :
    Shop.errorCursorGetNext c = (none, some c.err) := rfl

/-- Supporting fact: the slice cursor is terminally stable — once the
items are exhausted, every call reports exhaustion and leaves the
cursor unchanged. -/
theorem sliceCursor_terminal_stable {α : Type} (c : Shop.SliceCursorM α)
    (h : c.items = []) :
    Shop.sliceCursorGetNext c = ((none, none), c) := by
  unfold Shop.sliceCursorGetNext
  rw [h]

/-! ## Claim C2 -/

/-- Helper: a conforming destination that succeeds accepted the whole
input, and one that fails accepted exactly the byte count wrapped with
its error. -/
theorem writerRun_conforming_spec (data : List Nat) (rs : Shop.WriterResp)
    (h : Shop.conformingResp data rs = true) :
    ((Shop.writerRun rs data 0 0).err = none →
      (Shop.writerRun rs data 0 0).accepted = data.length) ∧
    (∀ p, (Shop.writerRun rs data 0 0).err = some p →
      (Shop.writerRun rs data 0 0).accepted = p.2) := by
  match data, rs with
  | [], [] =>
    simp [Shop.writerRun]
  | [], (n, e) :: rest =>
    simp [Shop.writerRun]
  | d :: ds, [] =>
    simp [Shop.conformingResp] at h
  | d :: ds, (n, none) :: rest =>
    simp [Shop.conformingResp] at h
    subst h
    simp [Shop.writerRun, List.drop_length]
  | d :: ds, (n, some m) :: rest =>
    simp [Shop.conformingResp] at h
    simp [Shop.writerRun, Nat.min_eq_left h]

/-- Helper: folding min over the wrapped byte counts of the failing
conforming destinations, starting at the input length, equals folding
min over every destination's accepted byte count. -/
theorem teeFold_conforming (data : List Nat) (dests : List Shop.WriterResp)
    (h : ∀ rs ∈ dests, Shop.conformingResp data rs = true) :
    ∀ init, init ≤ data.length →
      ((dests.map (fun rs => Shop.writerRun rs data 0 0)).filterMap
          (fun o => o.err)).foldl (fun m p => min m p.2) init
        = (dests.map (fun rs => (Shop.writerRun rs data 0 0).accepted)).foldl
            min init := by
  induction dests with
  | nil => intro init _; simp
  | cons rs rest ih =>
    intro init hinit
    have hrs := h rs (by simp)
    have hrest : ∀ r ∈ rest, Shop.conformingResp data r = true := by
      intro r hr; exact h r (by simp [hr])
    cases ho : (Shop.writerRun rs data 0 0).err with
    | none =>
      have ha := (writerRun_conforming_spec data rs hrs).1 ho
      simp only [List.map_cons, List.filterMap_cons, ho, ha, List.foldl_cons]
      rw [min_eq_left hinit]
      exact ih hrest init hinit
    | some p =>
      have ha := (writerRun_conforming_spec data rs hrs).2 p ho
      simp only [List.map_cons, List.filterMap_cons, ho, ha, List.foldl_cons]
      exact ih hrest (min init p.2)
        (le_trans (min_le_left init p.2) hinit)

/-- Helper: folding min over a list that never goes below the start
value returns the start value. -/
theorem foldl_min_of_le (l : List Nat) :
    ∀ c, (∀ x ∈ l, c ≤ x) → l.foldl min c = c := by
  induction l with
  | nil => intro c _; rfl
  | cons x xs ih =>
    intro c hc
    have hx : c ≤ x := hc x (by simp)
    simp only [List.foldl_cons, min_eq_left hx]
    exact ih c (fun y hy => hc y (by simp [hy]))

/-- C2 (amended): for destinations honouring the io.Writer contract —
never a short count without an error — the fan-out call reports the
minimum over all destinations of the bytes each accepted (a failing
destination k contributing its b_k, a successful one the input
length), its aggregated error is nil exactly when every destination
succeeded, and when all succeed the reported count is the input
length. -/
theorem C2_fanout_writer_min_bytes (dests : List Shop.WriterResp)
    (data : List Nat)
    (h : ∀ rs ∈ dests, Shop.conformingResp data rs = true) :
    (Shop.teeWrite dests data).1
        = (dests.map (fun rs => (Shop.writerRun rs data 0 0).accepted)).foldl
            min data.length ∧
    ((Shop.teeWrite dests data).2 = []
        ↔ ∀ rs ∈ dests, (Shop.writerRun rs data 0 0).err = none) ∧
    ((∀ rs ∈ dests, (Shop.writerRun rs data 0 0).err = none)
        → (Shop.teeWrite dests data).1 = data.length) := by
  refine ⟨?_, ?_, ?_⟩
  · exact teeFold_conforming data dests h data.length le_rfl
  · simp only [Shop.teeWrite, List.map_eq_nil_iff, List.filterMap_eq_nil_iff,
      List.mem_map]
    constructor
    · intro hnil rs hrs
      exact hnil _ ⟨rs, hrs, rfl⟩
    · rintro hall o ⟨rs, hrs, rfl⟩
      exact hall rs hrs
  · intro hall
    have h1 := teeFold_conforming data dests h data.length le_rfl
    rw [show (Shop.teeWrite dests data).1
        = ((dests.map (fun rs => Shop.writerRun rs data 0 0)).filterMap
            (fun o => o.err)).foldl (fun m p => min m p.2) data.length from rfl]
    rw [h1]
    apply foldl_min_of_le
    intro x hx
    rcases List.mem_map.mp hx with ⟨rs, hrs, rfl⟩
    rw [(writerRun_conforming_spec data rs (h rs hrs)).1 (hall rs hrs)]

/-- C2 witness: a five-byte input fanned out to one destination that
accepts everything and one that fails after accepting two bytes. -/
theorem C2_fanout_writer_min_bytes_witness :
    (Shop.teeWrite [[(5, none)], [(2, some "disk full")]] [1, 2, 3, 4, 5]).1
        = (([[(5, none)], [(2, some "disk full")]] : List Shop.WriterResp).map
            (fun rs => (Shop.writerRun rs [1, 2, 3, 4, 5] 0 0).accepted)).foldl
            min ([1, 2, 3, 4, 5] : List Nat).length ∧
    ((Shop.teeWrite [[(5, none)], [(2, some "disk full")]] [1, 2, 3, 4, 5]).2 = []
        ↔ ∀ rs ∈ ([[(5, none)], [(2, some "disk full")]] : List Shop.WriterResp),
            (Shop.writerRun rs [1, 2, 3, 4, 5] 0 0).err = none) ∧
    ((∀ rs ∈ ([[(5, none)], [(2, some "disk full")]] : List Shop.WriterResp),
        (Shop.writerRun rs [1, 2, 3, 4, 5] 0 0).err = none)
        → (Shop.teeWrite [[(5, none)], [(2, some "disk full")]] [1, 2, 3, 4, 5]).1
            = ([1, 2, 3, 4, 5] : List Nat).length) :=
  C2_fanout_writer_min_bytes [[(5, none)], [(2, some "disk full")]]
    [1, 2, 3, 4, 5] (by decide)

/-- C2 counterexample: a destination that reports a three-byte short
write and then fails with count zero has accepted b = 3 bytes, yet the
fan-out call reports 0 — the wrapped count is that of the final Write
call, not the destination's accepted total — so the claim's
min-over-b_k accounting fails as stated for writers outside the
io.Writer contract. -/
theorem C2_reported_bytes_not_min_accepted :
    (Shop.writerRun [(3, none), (0, some "boom")] [1, 2, 3, 4, 5] 0 0).accepted
        = 3 ∧
    (Shop.writerRun [(3, none), (0, some "boom")] [1, 2, 3, 4, 5] 0 0).err.isSome
        = true ∧
    (Shop.teeWrite [[(3, none), (0, some "boom")]] [1, 2, 3, 4, 5]).1 = 0 ∧
    (Shop.teeWrite [[(3, none), (0, some "boom")]] [1, 2, 3, 4, 5]).1 ≠ 3 := by
  decide

/-! ## Claim C1 -/

/-- Helper: stripping ownership maps two nodes that agree on everything
except ownership to the same node. -/
theorem stripNode_eq (a b : Shop.FileNode) (h : Shop.eqExceptOwner a b = true) :
    ({ a with info := Shop.stripOwnerFileInfo a.info } : Shop.FileNode)
      = { b with info := Shop.stripOwnerFileInfo b.info } := by
  obtain ⟨pa, ⟨na, da, sa, ma, ta, ya⟩, ca⟩ := a
  obtain ⟨pb, ⟨nb, db, sb, mb, tb, yb⟩, cb⟩ := b
  simp only [Shop.eqExceptOwner, Shop.stripOwnerFileInfo, Bool.and_eq_true,
    beq_iff_eq] at h
  simp_all
  rfl

/-- Helper: stripping ownership maps two trees that agree pointwise on
everything except ownership to the same tree. -/
theorem stripTree_eq (t1 t2 : Shop.FileTree)
    (h : List.Forall₂ (fun a b => Shop.eqExceptOwner a b = true) t1 t2) :
    Shop.stripOwnerTree t1 = Shop.stripOwnerTree t2 := by
  induction h with
  | nil => rfl
  | cons hab htl ih =>
    simp only [Shop.stripOwnerTree, List.map_cons] at ih ⊢
    exact congrArg₂ List.cons (stripNode_eq _ _ hab) ih

/-- C1 (amended): MakeArchive is deterministic with respect to file
ownership: two trees that agree on paths, contents, types, sizes,
modification times and permission bits, and differ only in uid/gid,
produce byte-identical compressed output and the same id — the
ownership is erased by stripOwnerFileInfo before the tar encoder.
Permission bits, by contrast, do enter the tar header (see the
counterexample), so determinism does not extend to them. -/
theorem C1_archive_owner_determinism (t1 t2 : Shop.FileTree)
    (h : List.Forall₂ (fun a b => Shop.eqExceptOwner a b = true) t1 t2) :
    Shop.MakeArchive t1 = Shop.MakeArchive t2 := by
  have hs := stripTree_eq t1 t2 h
  simp only [Shop.MakeArchive, hs]

/-- C1 witness: a one-file tree owned by uid/gid 1000 and the same tree
owned by root archive to the same bytes and id. -/
theorem C1_archive_owner_determinism_witness :
    Shop.MakeArchive [⟨"f", ⟨"f", false, 3, 420, 100, some ⟨1000, 1000⟩⟩, [7, 8, 9]⟩]
      = Shop.MakeArchive [⟨"f", ⟨"f", false, 3, 420, 100, some ⟨0, 0⟩⟩, [7, 8, 9]⟩] :=
  C1_archive_owner_determinism
    [⟨"f", ⟨"f", false, 3, 420, 100, some ⟨1000, 1000⟩⟩, [7, 8, 9]⟩]
    [⟨"f", ⟨"f", false, 3, 420, 100, some ⟨0, 0⟩⟩, [7, 8, 9]⟩]
    (by refine List.Forall₂.cons ?_ List.Forall₂.nil; decide)

/-- C1 counterexample: two trees identical in paths and file contents
that differ in owner and in permission bits (mode 0644 versus 0755) do
not produce byte-identical compressed output: only ownership is
stripped, and the mode field enters the tar header. -/
theorem C1_mode_changes_archive :
    (Shop.MakeArchive
        [⟨"f", ⟨"f", false, 3, 420, 100, some ⟨1000, 1000⟩⟩, [7, 8, 9]⟩]).1
      ≠ (Shop.MakeArchive
        [⟨"f", ⟨"f", false, 3, 493, 100, some ⟨0, 0⟩⟩, [7, 8, 9]⟩]).1 := by
  decide

/-! ## Claim C10 -/

/-- C10: for every repository configuration whose URL parses but whose
scheme has no registered backend factory, NewRepository returns a
repository value (with a nil backend filesystem) together with a nil
error: the unknown-schema failure assigned inside the function is
discarded by the final return. -/
theorem C10_unknown_scheme_yields_repo_and_nil_error
    (cfg : Shop.RepositoryConfig)
    (hp : Shop.urlParses cfg.url = true)
    (hs : Shop.urlSchemeOf cfg.url ∉ Shop.registeredSchemes) :
    Shop.NewRepository cfg = (some ⟨cfg, none⟩, none) := by
  simp [Shop.NewRepository, hp, hs]

/-- C10 witness: an s3 URL parses, s3 has no registered factory, and
NewRepository returns the repository with a nil backend and no
error. -/
theorem C10_unknown_scheme_yields_repo_and_nil_error_witness :
    Shop.NewRepository ⟨"s3://bucket/x", true, true⟩
      = (some ⟨⟨"s3://bucket/x", true, true⟩, none⟩, none) :=
  C10_unknown_scheme_yields_repo_and_nil_error ⟨"s3://bucket/x", true, true⟩
    (by decide) (by decide)
